import Mathlib

/-! Verification development for the WordSeek word-guessing bot
(src/B.py and src/wordseek.py).  The Python functions relevant to the
frozen claims are shallowly embedded as executable Lean definitions and
the claimed properties are proved or refuted about them.
-/

namespace WordSeek

/-! Hint engine (src/B.py get_hint, lines 149-161; identical in
src/wordseek.py lines 189-201) -/

/-- Per-position classification of a guess letter: 🟩 / 🟨 / 🟥. -/
inductive HintMark
  | correct
  | present
  | absent
deriving DecidableEq, Repr

/-- Replace the first occurrence of `some c` in the pool by `none`;
embeds `target_list[target_list.index(guess[i])] = None`. -/
def consumeFirst (c : Char) : List (Option Char) → List (Option Char)
  | [] => []
  | x :: xs => if x = some c then none :: xs else x :: consumeFirst c xs

/-- Embeds the loop body of `get_hint`: `i` is the loop counter, `pool`
is `target_list` (consumed letters are `none`); the green test compares
against the original `target` by index, exactly as the source does. -/
def hintAux (target : List Char) : List Char → Nat → List (Option Char) → List HintMark
  | [], _, _ => []
  | g :: gs, i, pool =>
    if target[i]? = some g then
      HintMark.correct :: hintAux target gs (i + 1) (pool.set i none)
    else if some g ∈ pool then
      HintMark.present :: hintAux target gs (i + 1) (consumeFirst g pool)
    else
      HintMark.absent :: hintAux target gs (i + 1) pool

/-- Embeds `get_hint(guess, target)` from src/B.py lines 149-161. -/
def get_hint (guess target : List Char) : List HintMark :=
  hintAux target guess 0 (target.map some)

/-! The two-pass algorithm of the spec (section 4.2), for comparison -/

/-- Modelled from the spec (section 4.2, pass 1): the pool of target
letters left after consuming every position where guess and target
agree, including agreeing positions to the right. -/
def spec_pool (guess target : List Char) : List Char :=
  (guess.zip target).filterMap (fun gt => if gt.1 = gt.2 then none else some gt.2)

/-- Modelled from the spec (section 4.2, pass 2): positions not marked
`Correct` are scanned left to right; `Present` consumes one pool
occurrence, otherwise `Absent`. -/
def spec_pass2 : List (Char × Char) → List Char → List HintMark
  | [], _ => []
  | gt :: rest, pool =>
    if gt.1 = gt.2 then
      HintMark.correct :: spec_pass2 rest pool
    else if gt.1 ∈ pool then
      HintMark.present :: spec_pass2 rest (pool.erase gt.1)
    else
      HintMark.absent :: spec_pass2 rest pool

/-- Modelled from the spec (section 4.2): the full two-pass hint. -/
def hint_two_pass (guess target : List Char) : List HintMark :=
  spec_pass2 (guess.zip target) (spec_pool guess target)

/-! The single pass the code actually performs, stated independently
as a left fold over the zipped strings -/

/-- One step of the single left-to-right pass: state is the position
counter, the pool of unconsumed target letters, and the output so far. -/
def onePassStep (st : Nat × List (Option Char) × List HintMark) (gt : Char × Char) :
    Nat × List (Option Char) × List HintMark :=
  let i := st.1
  let pool := st.2.1
  let acc := st.2.2
  if gt.1 = gt.2 then (i + 1, pool.set i none, acc ++ [HintMark.correct])
  else if some gt.1 ∈ pool then (i + 1, consumeFirst gt.1 pool, acc ++ [HintMark.present])
  else (i + 1, pool, acc ++ [HintMark.absent])

/-- The single-pass hint algorithm as a fold: position `i` is `Correct`
when the letters agree (consuming target position `i`), otherwise
`Present` when the letter is still in the pool — which still holds
letters at agreeing positions to the right — otherwise `Absent`. -/
def hint_one_pass (guess target : List Char) : List HintMark :=
  ((guess.zip target).foldl onePassStep (0, target.map some, [])).2.2

/-! Data model for the MongoDB variant (src/B.py) -/

/-- Pointwise map update, modelling a keyed write to a document store. -/
def updFn {κ α : Type} [DecidableEq κ] (f : κ → α) (k : κ) (v : α) : κ → α :=
  fun x => if x = k then v else f x

/-- The projections of a `datetime.now()` reading that `update_score`
compares: `now.date()`, `now.isocalendar().week`, `now.month`. -/
structure DT where
  date : Int
  week : Int
  month : Int
deriving DecidableEq

/-- The four period buckets of a score counter (section 3 of the spec). -/
structure PeriodCounters where
  today : Nat
  week : Nat
  month : Nat
  all_time : Nat
deriving DecidableEq

/-- One document of `scores_coll`, keyed by `user_id`: per-chat bucket
counters under `scores.{chat_id}`, global counters under `global`, and
team scores under `teams.{team}.score`. Missing subdocuments read as
zero, matching the upsert and `$inc` semantics. -/
structure ScoreDoc where
  chatScores : Int → PeriodCounters
  globalScores : PeriodCounters
  teamScores : String → Nat

/-- One document of `stats_coll`, keyed by `user_id`. Missing fields
read as zero or empty, matching `$inc`, `$addToSet` and `or {}`. -/
structure PlayerStats where
  games_played : Nat
  wins : Nat
  total_guesses : Nat
  achievements : List String

/-- The single `bot_stats_coll` document. -/
structure BotStats where
  games_started : Nat
  guesses_made : Nat
  last_updated : Rat

def zeroPeriod : PeriodCounters := ⟨0, 0, 0, 0⟩

def zeroScoreDoc : ScoreDoc := ⟨fun _ => zeroPeriod, zeroPeriod, fun _ => 0⟩

def zeroStats : PlayerStats := ⟨0, 0, 0, []⟩

def boolInc (b : Bool) : Nat := if b then 1 else 0

/-- Embeds `update_score` from src/B.py lines 163-180. `nowD` is the
`now = datetime.now()` captured at entry; `c0 .. c5` are the six later
`datetime.now()` calls made while building the `$inc` document (chat
today/week/month, then global today/week/month, in source order). -/
def update_score (nowD c0 c1 c2 c3 c4 c5 : DT) (user chat : Int) (mode : String)
    (team : Option String) (scores : Int → ScoreDoc) (stats : Int → PlayerStats) :
    (Int → ScoreDoc) × (Int → PlayerStats) :=
  let doc := scores user
  let cs := doc.chatScores chat
  let csNew : PeriodCounters :=
    { all_time := cs.all_time + 1
      today := cs.today + boolInc (decide (nowD.date = c0.date))
      week := cs.week + boolInc (decide (nowD.week = c1.week))
      month := cs.month + boolInc (decide (nowD.month = c2.month)) }
  let gl := doc.globalScores
  let glNew : PeriodCounters :=
    { all_time := gl.all_time + 1
      today := gl.today + boolInc (decide (nowD.date = c3.date))
      week := gl.week + boolInc (decide (nowD.week = c4.week))
      month := gl.month + boolInc (decide (nowD.month = c5.month)) }
  let tsNew : String → Nat :=
    if mode = "team" then
      match team with
      | some t => updFn doc.teamScores t (doc.teamScores t + 1)
      | none => doc.teamScores
    else doc.teamScores
  let doc2 : ScoreDoc :=
    { chatScores := updFn doc.chatScores chat csNew, globalScores := glNew,
      teamScores := tsNew }
  let s := stats user
  (updFn scores user doc2, updFn stats user { s with wins := s.wins + 1 })

/-- Embeds `update_stats` from src/B.py lines 182-192: bumps the
player's `games_played` by 1 and `total_guesses` by `guesses`, and the
bot aggregate `guesses_made` by `guesses` (`games_started` by 0). -/
def update_stats (user : Int) (guesses : Nat) (tnow : Rat)
    (stats : Int → PlayerStats) (bot : BotStats) : (Int → PlayerStats) × BotStats :=
  let s := stats user
  (updFn stats user
    { s with games_played := s.games_played + 1, total_guesses := s.total_guesses + guesses },
   { bot with guesses_made := bot.guesses_made + guesses, last_updated := tnow })

/-! Achievements (src/B.py lines 128-132 and 194-205) -/

/-- One registered achievement: id, display name, stats predicate. -/
structure Achievement where
  achId : String
  achName : String
  cond : PlayerStats → Bool

/-- Embeds the `ACHIEVEMENTS` table of src/B.py lines 128-132. -/
def ACHIEVEMENTS : List Achievement :=
  [⟨"first_win", "First Win", fun s => decide (1 ≤ s.wins)⟩,
   ⟨"ten_wins", "Deca-Winner", fun s => decide (10 ≤ s.wins)⟩,
   ⟨"hundred_guesses", "Guess Master", fun s => decide (100 ≤ s.total_guesses)⟩]

/-- Embeds Mongo `$addToSet`: append the id if it is not present. -/
def addAch (s : PlayerStats) (i : String) : PlayerStats :=
  if s.achievements.contains i then s
  else { s with achievements := s.achievements ++ [i] }

/-- Embeds the loop of `check_achievements`: `snap` is the stats
snapshot read once at entry (`user_stats`); every condition and
membership test uses the snapshot, while the writes go to the store. -/
def checkAchGo (user : Int) (snap : PlayerStats) :
    List Achievement → (Int → PlayerStats) → List String × (Int → PlayerStats)
  | [], db => ([], db)
  | a :: rest, db =>
    if a.cond snap && !(snap.achievements.contains a.achId) then
      let db2 := updFn db user (addAch (db user) a.achId)
      let r := checkAchGo user snap rest db2
      (a.achName :: r.1, r.2)
    else checkAchGo user snap rest db

/-- Embeds `check_achievements` from src/B.py lines 194-205. -/
def check_achievements (user : Int) (db : Int → PlayerStats) :
    List String × (Int → PlayerStats) :=
  checkAchGo user (db user) ACHIEVEMENTS db

/-! Game sessions and command handlers (src/B.py) -/

/-- The settings record of src/B.py lines 119-125. -/
structure SettingsB where
  max_guesses : Nat
  word_length : Nat
  timeout : Nat
  theme : String
  mode : String
deriving DecidableEq

/-- Embeds `DEFAULT_SETTINGS` from src/B.py lines 119-125. -/
def DEFAULT_SETTINGS : SettingsB :=
  { max_guesses := 30, word_length := 5, timeout := 3600, theme := "default",
    mode := "standard" }

/-- One full game document of `games_coll` (src/B.py lines 278-287). -/
structure GameB where
  word : List Char
  guesses : List (Int × List Char)
  players : List Int
  team1 : List Int
  team2 : List Int
  settings : SettingsB
  banned : List Int
deriving DecidableEq

/-- A document in `games_coll`: either a full game, or the word-less
settings-only document that `update_settings` creates when it upserts
into a chat with no game (src/B.py line 355). -/
inductive GameDoc
  | game (g : GameB)
  | stub (settings : SettingsB)
deriving DecidableEq

/-- The mutable store of src/B.py: `games_coll`, `scores_coll`,
`stats_coll`, `bot_stats_coll`, plus the in-process rate-limit map
`user_last_guess` (the fallback used when redis is unavailable). -/
structure StateB where
  games : Int → Option GameDoc
  scores : Int → ScoreDoc
  stats : Int → PlayerStats
  botStats : BotStats
  lastGuess : Int → Option Rat

/-- The store with no documents anywhere. -/
def emptyStateB : StateB :=
  { games := fun _ => none, scores := fun _ => zeroScoreDoc,
    stats := fun _ => zeroStats, botStats := ⟨0, 0, 0⟩, lastGuess := fun _ => none }

/-- Python set.add: append if absent. -/
def addToSetZ (l : List Int) (x : Int) : List Int :=
  if l.contains x then l else l ++ [x]

/-- Embeds `RATE_LIMIT = 2` seconds (src/B.py line 135). -/
def RATE_LIMIT : Rat := 2

/-- Result of the `/new` command handler (src/B.py lines 259-307).
`crashIndexError` models the uncaught `IndexError` that
`random.choice` raises on an empty list. -/
inductive NewGameResult
  | invalidMode
  | alreadyInProgress
  | crashIndexError
  | started (word : List Char)
deriving DecidableEq

/-- Embeds `new_game` from src/B.py lines 259-307 (the persistent-state
part; message sending and the deferred reminder/timeout tasks are
transport glue). `fetched` is the list returned by
`fetch_words(word_length)` and `pick` resolves the randomness of
`random.choice` by index. -/
def new_game (st : StateB) (chat : Int) (mode : String) (fetched : List (List Char))
    (pick : Nat) : NewGameResult × StateB :=
  if !(["standard", "team", "competitive"].contains mode) then (.invalidMode, st)
  else if (st.games chat).isSome then (.alreadyInProgress, st)
  else
    match fetched with
    | [] => (.crashIndexError, st)
    | w :: ws =>
      let word := (w :: ws).getD (pick % (ws.length + 1)) w
      let settings := { DEFAULT_SETTINGS with mode := mode }
      let g : GameB :=
        { word := word, guesses := [], players := [], team1 := [], team2 := [],
          settings := settings, banned := [] }
      (.started word,
       { st with games := updFn st.games chat (some (.game g)),
                 botStats := { st.botStats with
                                games_started := st.botStats.games_started + 1 } })

/-- A settings key accepted by the `/settings` handler. -/
inductive SettingKey
  | maxGuesses
  | length
  | timeout
  | theme
deriving DecidableEq

/-- A settings value: the parsed integer or the raw theme string. -/
inductive SettingVal
  | num (n : Int)
  | str (s : String)
deriving DecidableEq

/-- Embeds the validation and merge of src/B.py lines 340-354:
integer keys need a positive value, `theme` needs one of the three
theme names. -/
def applySetting (s : SettingsB) : SettingKey → SettingVal → Option SettingsB
  | .maxGuesses, .num n => if n ≤ 0 then none else some { s with max_guesses := n.toNat }
  | .length, .num n => if n ≤ 0 then none else some { s with word_length := n.toNat }
  | .timeout, .num n => if n ≤ 0 then none else some { s with timeout := n.toNat }
  | .theme, .str v =>
    if ["default", "dark", "light"].contains v then some { s with theme := v } else none
  | _, _ => none

/-- Result of the `/settings` command handler. -/
inductive SettingsResult
  | invalidSetting
  | updated (s : SettingsB)
deriving DecidableEq

/-- Embeds `update_settings` from src/B.py lines 326-356 (after the
admin check, which is transport glue): validates, merges into the
settings of the existing games document or the defaults, and writes
with `upsert=True` — when no document exists for the chat this creates
a settings-only stub document. -/
def update_settings (st : StateB) (chat : Int) (key : SettingKey) (val : SettingVal) :
    SettingsResult × StateB :=
  let base := match st.games chat with
    | some (.game g) => g.settings
    | some (.stub s) => s
    | none => DEFAULT_SETTINGS
  match applySetting base key val with
  | none => (.invalidSetting, st)
  | some s2 =>
    let newDoc := match st.games chat with
      | some (.game g) => GameDoc.game { g with settings := s2 }
      | some (.stub _) => GameDoc.stub s2
      | none => GameDoc.stub s2
    (.updated s2, { st with games := updFn st.games chat (some newDoc) })

/-- A live session exists for the chat: the games store holds a full
game document (one with a target word), not merely a settings stub. -/
def liveSession (st : StateB) (chat : Int) : Prop :=
  ∃ g, st.games chat = some (.game g)

/-! The guess handler (src/B.py lines 517-590) -/

/-- Outcome of one inbound guess message. The first five constructors
are the rejection replies; `crashKeyError` models the uncaught
`KeyError` hit when the games document is a settings stub (it has no
`guesses` field); the last three are the accepted outcomes. -/
inductive Outcome
  | rateLimited
  | noGame
  | playerBanned
  | invalidGuess
  | notAWord
  | crashKeyError
  | win (hint : List HintMark) (unlocked : List String)
  | gameOver (hint : List HintMark)
  | guessing (hint : List HintMark) (left : Nat)
deriving DecidableEq

/-- An accepted guess: one that passed the rate-limit, ban, length,
alphabetic and dictionary checks and was appended to the guess log. -/
def acceptedB : Outcome → Bool
  | .win _ _ => true
  | .gameOver _ => true
  | .guessing _ _ => true
  | _ => false

/-- The outcome reports a win. -/
def isWin : Outcome → Bool
  | .win _ _ => true
  | _ => false

/-- Embeds `message.text.lower().strip()` (src/B.py line 523). -/
def stripLower (l : List Char) : List Char :=
  (((l.map Char.toLower).dropWhile Char.isWhitespace).reverse.dropWhile
      Char.isWhitespace).reverse

/-- Embeds `str.isalpha`: non-empty and all letters. -/
def isalphaL (l : List Char) : Bool :=
  !l.isEmpty && l.all Char.isAlpha

/-- Embeds the shape check of src/B.py line 548: right length and
alphabetic. -/
def guessShapeOk (guess : List Char) (wl : Nat) : Bool :=
  (guess.length == wl) && isalphaL guess

/-- Embeds the rate-limit test of src/B.py lines 533-537 (the
in-process fallback path, `redis_client = None`). -/
def rateLimitedB (st : StateB) (user : Int) (now : Rat) : Bool :=
  match st.lastGuess user with
  | some t => decide (now - t < RATE_LIMIT)
  | none => false

/-- The rate limiter arms itself: `user_last_guess[user_id] = now`. -/
def withLastGuess (st : StateB) (user : Int) (now : Rat) : StateB :=
  { st with lastGuess := updFn st.lastGuess user (some now) }

/-- Embeds lines 556-559: in team mode the guesser joins team1 when the
pre-append guess count is even, team2 otherwise. -/
def teamOf (g : GameB) : Option String :=
  if g.settings.mode = "team" then
    some (if g.guesses.length % 2 = 0 then "team1" else "team2")
  else none

/-- Adds the guesser to the chosen team bucket. -/
def addTeam (g : GameB) (user : Int) : Option String → GameB
  | some t =>
    if t = "team1" then { g with team1 := addToSetZ g.team1 user }
    else { g with team2 := addToSetZ g.team2 user }
  | none => g

/-- Embeds lines 556-562: team bucket, guess-log append, player set. -/
def appendGuess (g : GameB) (team : Option String) (user : Int) (guess : List Char) :
    GameB :=
  let g1 := addTeam g user team
  { g1 with guesses := g1.guesses ++ [(user, guess)],
            players := addToSetZ g1.players user }

/-- Embeds the accepted-guess tail of `handle_guess` (src/B.py lines
556-590): append and persist the guess, `update_stats`, compute the
hint, then the win / exhaustion / continue split. `dnow` stands for
the `datetime.now()` readings made inside `update_score` on the win
path. -/
def acceptGuess (dnow : DT) (st : StateB) (chat user : Int) (guess : List Char)
    (g : GameB) (now : Rat) : Outcome × StateB :=
  let team := teamOf g
  let g2 := appendGuess g team user guess
  let st1 := { st with games := updFn st.games chat (some (.game g2)) }
  let us := update_stats user 1 now st1.stats st1.botStats
  let st2 := { st1 with stats := us.1, botStats := us.2 }
  let hint := get_hint guess g.word
  if guess = g.word then
    let sc := update_score dnow dnow dnow dnow dnow dnow dnow user chat
      g.settings.mode team st2.scores st2.stats
    let st3 := { st2 with scores := sc.1, stats := sc.2 }
    let ach := check_achievements user st3.stats
    (.win hint ach.1,
     { st3 with stats := ach.2, games := updFn st3.games chat none })
  else if g.settings.max_guesses ≤ g2.guesses.length then
    (.gameOver hint, { st2 with games := updFn st2.games chat none })
  else
    (.guessing hint (g.settings.max_guesses - g2.guesses.length), st2)

/-- Embeds the checks of lines 543-554 for a full game document:
ban, length/alphabetic, dictionary; then the accepted tail. -/
def processGameGuess (words : List (List Char)) (dnow : DT) (st : StateB)
    (chat user : Int) (guess : List Char) (g : GameB) (now : Rat) : Outcome × StateB :=
  if g.banned.contains user then (.playerBanned, st)
  else if !(guessShapeOk guess g.settings.word_length) then (.invalidGuess, st)
  else if !(words.contains guess) then (.notAWord, st)
  else acceptGuess dnow st chat user guess g now

/-- Embeds `handle_guess` from src/B.py lines 517-590. `words` is the
module-level `WORDS` list, `now` the `time.time()` reading, `dnow` the
wall-clock reading used by `update_score` on a win. On a settings-stub
document the handler passes the guard checks (the stub has settings
and no ban list) and then crashes with `KeyError` at
`game["guesses"]`. -/
def handle_guess (words : List (List Char)) (dnow : DT) (st : StateB)
    (chat user : Int) (text : List Char) (now : Rat) : Outcome × StateB :=
  let guess := stripLower text
  if rateLimitedB st user now then (.rateLimited, st)
  else
    let st1 := withLastGuess st user now
    match st1.games chat with
    | none => (.noGame, st1)
    | some (.stub s) =>
      if !(guessShapeOk guess s.word_length) then (.invalidGuess, st1)
      else if !(words.contains guess) then (.notAWord, st1)
      else (.crashKeyError, st1)
    | some (.game g) => processGameGuess words dnow st1 chat user guess g now

/-- One inbound guess message for the trace semantics. -/
structure EventG where
  chat : Int
  user : Int
  text : List Char
  now : Rat

/-- Runs a sequence of guess messages through `handle_guess`. -/
def runTrace (words : List (List Char)) (dnow : DT) : StateB → List EventG → StateB
  | st, [] => st
  | st, e :: es =>
    runTrace words dnow (handle_guess words dnow st e.chat e.user e.text e.now).2 es

/-- Counts the events of a trace that are accepted guesses by `p`. -/
def acceptedCount (words : List (List Char)) (dnow : DT) (p : Int) :
    StateB → List EventG → Nat
  | _, [] => 0
  | st, e :: es =>
    (if e.user = p ∧ acceptedB (handle_guess words dnow st e.chat e.user e.text e.now).1
        = true then 1 else 0)
      + acceptedCount words dnow p (handle_guess words dnow st e.chat e.user e.text e.now).2 es

/-- A concrete live game used to instantiate the session theorems. -/
def gameW : GameB :=
  { word := ['a', 'p', 'p', 'l', 'e'], guesses := [], players := [], team1 := [],
    team2 := [], settings := DEFAULT_SETTINGS, banned := [] }

/-- A concrete store holding `gameW` as the live session of chat 1. -/
def gameStateW : StateB :=
  { emptyStateB with games := updFn emptyStateB.games 1 (some (GameDoc.game gameW)) }

/-! Leaderboard of the sqlite variant (src/wordseek.py lines 227-265) -/

/-- One row of the `scores` table of src/wordseek.py lines 42-52. -/
structure ScoreRow where
  user_id : Int
  chat_id : Int
  today : Int
  week : Int
  month : Int
  all_time : Int
deriving DecidableEq

/-- A period-bucket column name. -/
inductive Period
  | today
  | week
  | month
  | all_time
deriving DecidableEq

/-- Column access `SELECT user_id, {period}`. -/
def bucket (r : ScoreRow) : Period → Int
  | .today => r.today
  | .week => r.week
  | .month => r.month
  | .all_time => r.all_time

/-- The WHERE clause: `{period} > 0`, plus `chat_id = ?` in group
scope. -/
def matchRow (scope : String) (chat : Int) (p : Period) (r : ScoreRow) : Bool :=
  (0 < bucket r p) && (if scope = "group" then r.chat_id = chat else true)

/-- The ORDER BY relation: descending by the period column. -/
def lbOrd (p : Period) (a b : ScoreRow) : Prop :=
  bucket b p ≤ bucket a p

instance (p : Period) : DecidableRel (lbOrd p) :=
  fun a b => inferInstanceAs (Decidable (bucket b p ≤ bucket a p))

instance (p : Period) : IsTotal ScoreRow (lbOrd p) :=
  ⟨fun a b => le_total (bucket b p) (bucket a p)⟩

instance (p : Period) : IsTrans ScoreRow (lbOrd p) :=
  ⟨fun _ _ _ hab hbc => le_trans hbc hab⟩

/-- Models `ORDER BY {period} DESC` on the filtered rows (a stable
descending sort). -/
def orderRows (p : Period) (l : List ScoreRow) : List ScoreRow :=
  List.insertionSort (lbOrd p) l

/-- Embeds the SQL query of src/wordseek.py lines 230-239: filter,
sort descending, `LIMIT per_page OFFSET (page-1)*per_page`. -/
def sqlRows (rows : List ScoreRow) (scope : String) (chat : Int) (p : Period)
    (page per_page : Nat) : List ScoreRow :=
  ((orderRows p (rows.filter (matchRow scope chat p))).drop ((page - 1) * per_page)).take
    per_page

/-- Embeds `enumerate(leaderboard, 1 + (page - 1) * per_page)`. -/
def rankify (start : Nat) : List (Int × Int) → List (Nat × Int × Int)
  | [] => []
  | x :: xs => (start, x) :: rankify (start + 1) xs

/-- The displayed page: ranked entries plus the two pagination flags. -/
structure LBResult where
  entries : List (Nat × Int × Int)
  hasPrev : Bool
  hasNext : Bool
deriving DecidableEq

/-- Embeds `get_leaderboard` from src/wordseek.py lines 227-265:
`entries` are the displayed `(rank, user, score)` lines, `hasPrev` the
Previous button (`page > 1`), `hasNext` the Next button — shown when
`total == per_page`, where `total = len(leaderboard)` is the size of
the CURRENT page, not the matching-row count. -/
def ws_get_leaderboard (rows : List ScoreRow) (scope : String) (chat : Int)
    (p : Period) (page : Nat) (per_page : Nat := 5) : LBResult :=
  let sel := sqlRows rows scope chat p page per_page
  let lb := sel.map (fun r => (r.user_id, bucket r p))
  let total := lb.length
  { entries := rankify (1 + (page - 1) * per_page) lb
    hasPrev := decide (1 < page)
    hasNext := decide (total = per_page) }

/-- The concrete ledger with exactly five positive rows used to refute
the claimed hasNext rule. -/
def rows5 : List ScoreRow :=
  [⟨1, 1, 0, 0, 0, 1⟩, ⟨2, 1, 0, 0, 0, 1⟩, ⟨3, 1, 0, 0, 0, 1⟩,
   ⟨4, 1, 0, 0, 0, 1⟩, ⟨5, 1, 0, 0, 0, 1⟩]

/-! Theorems: the ten claims and their supporting lemmas. -/

theorem hintAux_eq_foldl (target : List Char) :
    ∀ (gs ts : List Char) (i : Nat) (pool : List (Option Char)) (acc : List HintMark),
      target.drop i = ts → gs.length = ts.length →
      ((gs.zip ts).foldl onePassStep (i, pool, acc)).2.2 = acc ++ hintAux target gs i pool := by
  intro gs
  induction gs with
  | nil =>
    intro ts i pool acc _ hlen
    simp [hintAux]
  | cons g gs ih =>
    intro ts i pool acc hdrop hlen
    cases ts with
    | nil => simp at hlen
    | cons t ts =>
      have hget : target[i]? = some t := by
        have h0 : (target.drop i)[0]? = some t := by rw [hdrop]; simp
        rw [List.getElem?_drop] at h0
        simpa using h0
      have hdrop1 : target.drop (i + 1) = ts := by
        have h2 := List.drop_drop 1 i target
        rw [← h2, hdrop]
        simp
      have hlen1 : gs.length = ts.length := by simpa using hlen
      rw [List.zip_cons_cons, List.foldl_cons]
      by_cases hgt : g = t
      · have hc1 : target[i]? = some g := by rw [hget, hgt]
        have e1 : onePassStep (i, pool, acc) (g, t)
            = (i + 1, pool.set i none, acc ++ [HintMark.correct]) := by
          simp [onePassStep, hgt]
        have e2 : hintAux target (g :: gs) i pool
            = HintMark.correct :: hintAux target gs (i + 1) (pool.set i none) := by
          simp [hintAux, hc1]
        rw [e1, ih ts (i + 1) (pool.set i none) _ hdrop1 hlen1, e2]
        simp
      · have hc1 : ¬ target[i]? = some g := by
          rw [hget]
          simp only [Option.some.injEq]
          exact fun h => hgt h.symm
        by_cases hmem : some g ∈ pool
        · have e1 : onePassStep (i, pool, acc) (g, t)
              = (i + 1, consumeFirst g pool, acc ++ [HintMark.present]) := by
            simp [onePassStep, hgt, hmem]
          have e2 : hintAux target (g :: gs) i pool
              = HintMark.present :: hintAux target gs (i + 1) (consumeFirst g pool) := by
            simp [hintAux, hc1, hmem]
          rw [e1, ih ts (i + 1) (consumeFirst g pool) _ hdrop1 hlen1, e2]
          simp
        · have e1 : onePassStep (i, pool, acc) (g, t)
              = (i + 1, pool, acc ++ [HintMark.absent]) := by
            simp [onePassStep, hgt, hmem]
          have e2 : hintAux target (g :: gs) i pool
              = HintMark.absent :: hintAux target gs (i + 1) pool := by
            simp [hintAux, hc1, hmem]
          rw [e1, ih ts (i + 1) pool _ hdrop1 hlen1, e2]
          simp

/-- Claim C1 (counterexample): on guess "aa" against target "ba" the
code marks position 0 `Present` — the single target letter a is
credited both at position 0 (Present) and at position 1 (Correct) —
whereas the two-pass algorithm of the spec marks position 0 `Absent`. -/
theorem get_hint_not_two_pass :
    get_hint ['a', 'a'] ['b', 'a']
      = [HintMark.present, HintMark.correct] ∧
    hint_two_pass ['a', 'a'] ['b', 'a']
      = [HintMark.absent, HintMark.correct] ∧
    get_hint ['a', 'a'] ['b', 'a']
      ≠ hint_two_pass ['a', 'a'] ['b', 'a'] := by
  refine ⟨by decide, by decide, by decide⟩

/-- Claim C1 (amended): for every guess and target of equal length,
`get_hint` follows the single left-to-right pass `hint_one_pass`:
position `i` is `Correct` when `guess[i] == target[i]` (consuming
target position `i` at that moment), otherwise `Present` when
`guess[i]` is still in the unconsumed pool — a pool that still contains
target letters at `Correct` positions to the right of `i` — consuming
its first occurrence, otherwise `Absent`. -/
theorem get_hint_eq_one_pass (guess target : List Char)
    (hlen : guess.length = target.length) :
    get_hint guess target = hint_one_pass guess target := by
  unfold get_hint hint_one_pass
  rw [hintAux_eq_foldl target guess target 0 (target.map some) [] (by simp) hlen]
  simp

theorem get_hint_eq_one_pass_witness :
    (['a', 'a'].length = ['b', 'a'].length) ∧
    get_hint ['a', 'a'] ['b', 'a']
      = hint_one_pass ['a', 'a'] ['b', 'a'] :=
  ⟨by decide, get_hint_eq_one_pass _ _ (by decide)⟩

/-- Claim C6: every recorded win bumps all four period buckets of the
chat-scoped counters of (player, chat) and of the player's global
counters by exactly one, and bumps the player's wins stat by one; the
bucket membership tests compare the wall-clock readings taken during
the write, so the hypotheses say those readings fall in the same
day, ISO week and month as the reading captured at entry. -/
theorem update_score_increments_all_buckets
    (nowD c0 c1 c2 c3 c4 c5 : DT) (user chat : Int) (mode : String) (team : Option String)
    (scores : Int → ScoreDoc) (stats : Int → PlayerStats)
    (h0 : c0.date = nowD.date) (h1 : c1.week = nowD.week) (h2 : c2.month = nowD.month)
    (h3 : c3.date = nowD.date) (h4 : c4.week = nowD.week) (h5 : c5.month = nowD.month) :
    ((((update_score nowD c0 c1 c2 c3 c4 c5 user chat mode team scores stats).1
        user).chatScores chat).today = ((scores user).chatScores chat).today + 1) ∧
    ((((update_score nowD c0 c1 c2 c3 c4 c5 user chat mode team scores stats).1
        user).chatScores chat).week = ((scores user).chatScores chat).week + 1) ∧
    ((((update_score nowD c0 c1 c2 c3 c4 c5 user chat mode team scores stats).1
        user).chatScores chat).month = ((scores user).chatScores chat).month + 1) ∧
    ((((update_score nowD c0 c1 c2 c3 c4 c5 user chat mode team scores stats).1
        user).chatScores chat).all_time = ((scores user).chatScores chat).all_time + 1) ∧
    ((((update_score nowD c0 c1 c2 c3 c4 c5 user chat mode team scores stats).1
        user).globalScores).today = ((scores user).globalScores).today + 1) ∧
    ((((update_score nowD c0 c1 c2 c3 c4 c5 user chat mode team scores stats).1
        user).globalScores).week = ((scores user).globalScores).week + 1) ∧
    ((((update_score nowD c0 c1 c2 c3 c4 c5 user chat mode team scores stats).1
        user).globalScores).month = ((scores user).globalScores).month + 1) ∧
    ((((update_score nowD c0 c1 c2 c3 c4 c5 user chat mode team scores stats).1
        user).globalScores).all_time = ((scores user).globalScores).all_time + 1) ∧
    (((update_score nowD c0 c1 c2 c3 c4 c5 user chat mode team scores stats).2
        user).wins = (stats user).wins + 1) := by
  simp [update_score, updFn, boolInc, h0, h1, h2, h3, h4, h5]

theorem update_score_increments_all_buckets_witness :
    ((⟨737000, 41, 10⟩ : DT).date = (⟨737000, 41, 10⟩ : DT).date) ∧
    ((((update_score ⟨737000, 41, 10⟩ ⟨737000, 41, 10⟩ ⟨737000, 41, 10⟩ ⟨737000, 41, 10⟩
        ⟨737000, 41, 10⟩ ⟨737000, 41, 10⟩ ⟨737000, 41, 10⟩ 7 3 "standard" none
        (fun _ => zeroScoreDoc) (fun _ => zeroStats)).1 7).chatScores 3).today
      = ((zeroScoreDoc.chatScores 3).today + 1)) ∧
    (((update_score ⟨737000, 41, 10⟩ ⟨737000, 41, 10⟩ ⟨737000, 41, 10⟩ ⟨737000, 41, 10⟩
        ⟨737000, 41, 10⟩ ⟨737000, 41, 10⟩ ⟨737000, 41, 10⟩ 7 3 "standard" none
        (fun _ => zeroScoreDoc) (fun _ => zeroStats)).2 7).wins = 1) := by
  refine ⟨rfl, ?_, ?_⟩
  · exact (update_score_increments_all_buckets ⟨737000, 41, 10⟩ ⟨737000, 41, 10⟩
      ⟨737000, 41, 10⟩ ⟨737000, 41, 10⟩ ⟨737000, 41, 10⟩ ⟨737000, 41, 10⟩ ⟨737000, 41, 10⟩
      7 3 "standard" none (fun _ => zeroScoreDoc) (fun _ => zeroStats)
      rfl rfl rfl rfl rfl rfl).1
  · have h := (update_score_increments_all_buckets ⟨737000, 41, 10⟩ ⟨737000, 41, 10⟩
      ⟨737000, 41, 10⟩ ⟨737000, 41, 10⟩ ⟨737000, 41, 10⟩ ⟨737000, 41, 10⟩ ⟨737000, 41, 10⟩
      7 3 "standard" none (fun _ => zeroScoreDoc) (fun _ => zeroStats)
      rfl rfl rfl rfl rfl rfl).2.2.2.2.2.2.2.2
    simpa [zeroStats] using h

theorem addAch_games_played (s : PlayerStats) (i : String) :
    (addAch s i).games_played = s.games_played := by
  unfold addAch; split <;> rfl

theorem addAch_wins (s : PlayerStats) (i : String) :
    (addAch s i).wins = s.wins := by
  unfold addAch; split <;> rfl

theorem addAch_total_guesses (s : PlayerStats) (i : String) :
    (addAch s i).total_guesses = s.total_guesses := by
  unfold addAch; split <;> rfl

theorem checkAchGo_fst (user : Int) (snap : PlayerStats) :
    ∀ (l : List Achievement) (db : Int → PlayerStats),
      (checkAchGo user snap l db).1
        = (l.filter (fun a => a.cond snap && !(snap.achievements.contains a.achId))).map
            (fun a => a.achName) := by
  intro l
  induction l with
  | nil => intro db; simp [checkAchGo]
  | cons a rest ih =>
    intro db
    simp only [checkAchGo, List.filter_cons]
    split
    next h => simp [h, ih]
    next h => simp [h, ih]

theorem checkAchGo_games_played (user : Int) (snap : PlayerStats) :
    ∀ (l : List Achievement) (db : Int → PlayerStats) (p : Int),
      ((checkAchGo user snap l db).2 p).games_played = (db p).games_played := by
  intro l
  induction l with
  | nil => intro db p; rfl
  | cons a rest ih =>
    intro db p
    simp only [checkAchGo]
    split
    next h =>
      have hrec := ih (updFn db user (addAch (db user) a.achId)) p
      by_cases hp : p = user
      · subst hp
        simpa [updFn, addAch_games_played] using hrec
      · simpa [updFn, hp] using hrec
    next h => exact ih db p

theorem checkAchGo_wins (user : Int) (snap : PlayerStats) :
    ∀ (l : List Achievement) (db : Int → PlayerStats) (p : Int),
      ((checkAchGo user snap l db).2 p).wins = (db p).wins := by
  intro l
  induction l with
  | nil => intro db p; rfl
  | cons a rest ih =>
    intro db p
    simp only [checkAchGo]
    split
    next h =>
      have hrec := ih (updFn db user (addAch (db user) a.achId)) p
      by_cases hp : p = user
      · subst hp
        simpa [updFn, addAch_wins] using hrec
      · simpa [updFn, hp] using hrec
    next h => exact ih db p

theorem checkAchGo_total_guesses (user : Int) (snap : PlayerStats) :
    ∀ (l : List Achievement) (db : Int → PlayerStats) (p : Int),
      ((checkAchGo user snap l db).2 p).total_guesses = (db p).total_guesses := by
  intro l
  induction l with
  | nil => intro db p; rfl
  | cons a rest ih =>
    intro db p
    simp only [checkAchGo]
    split
    next h =>
      have hrec := ih (updFn db user (addAch (db user) a.achId)) p
      by_cases hp : p = user
      · subst hp
        simpa [updFn, addAch_total_guesses] using hrec
      · simpa [updFn, hp] using hrec
    next h => exact ih db p

theorem addAch_contains (s : PlayerStats) (i x : String) :
    (addAch s i).achievements.contains x = (s.achievements.contains x || (x == i)) := by
  unfold addAch
  by_cases h : s.achievements.contains i <;> by_cases hx : x = i <;>
    simp_all [List.mem_append]

theorem checkAchGo_contains (user : Int) (snap : PlayerStats) :
    ∀ (l : List Achievement) (db : Int → PlayerStats) (x : String),
      ((checkAchGo user snap l db).2 user).achievements.contains x
        = ((db user).achievements.contains x ||
           ((l.filter (fun a => a.cond snap && !(snap.achievements.contains a.achId))).map
              (fun a => a.achId)).contains x) := by
  intro l
  induction l with
  | nil => intro db x; simp [checkAchGo]
  | cons a rest ih =>
    intro db x
    simp only [checkAchGo, List.filter_cons]
    split
    next h =>
      have hrec := ih (updFn db user (addAch (db user) a.achId)) x
      have hdb2 : (updFn db user (addAch (db user) a.achId)) user
          = addAch (db user) a.achId := by simp [updFn]
      rw [hdb2, addAch_contains] at hrec
      simp only [h, if_pos, List.map_cons, List.contains_cons]
      rw [hrec]
      cases hc : (db user).achievements.contains x <;> cases hb : (x == a.achId) <;> simp
    next h =>
      exact ih db x

/-- Claim C8: `check_achievements` returns exactly the achievements
whose predicate holds on the current stats snapshot and whose id is not
already unlocked, adds exactly those ids to the unlocked set, and a
second run on the resulting state returns the empty list. -/
theorem check_achievements_idempotent (db : Int → PlayerStats) (user : Int) :
    ((check_achievements user db).1
      = (ACHIEVEMENTS.filter
          (fun a => a.cond (db user) && !((db user).achievements.contains a.achId))).map
          (fun a => a.achName)) ∧
    (∀ x : String,
      (((check_achievements user db).2 user).achievements.contains x
        = ((db user).achievements.contains x ||
           ((ACHIEVEMENTS.filter
              (fun a => a.cond (db user) && !((db user).achievements.contains a.achId))).map
              (fun a => a.achId)).contains x))) ∧
    ((check_achievements user (check_achievements user db).2).1 = []) := by
  refine ⟨checkAchGo_fst user (db user) ACHIEVEMENTS db, ?_, ?_⟩
  · intro x
    exact checkAchGo_contains user (db user) ACHIEVEMENTS db x
  · set db2 := (check_achievements user db).2 with hdb2
    have hwin : (db2 user).wins = (db user).wins :=
      checkAchGo_wins user (db user) ACHIEVEMENTS db user
    have hguess : (db2 user).total_guesses = (db user).total_guesses :=
      checkAchGo_total_guesses user (db user) ACHIEVEMENTS db user
    have hcont : ∀ x : String, (db2 user).achievements.contains x
        = ((db user).achievements.contains x ||
           ((ACHIEVEMENTS.filter
              (fun a => a.cond (db user) && !((db user).achievements.contains a.achId))).map
              (fun a => a.achId)).contains x) :=
      fun x => checkAchGo_contains user (db user) ACHIEVEMENTS db x
    rw [show (check_achievements user db2).1
          = (ACHIEVEMENTS.filter
              (fun a => a.cond (db2 user) && !((db2 user).achievements.contains a.achId))).map
              (fun a => a.achName)
        from checkAchGo_fst user (db2 user) ACHIEVEMENTS db2]
    rw [List.map_eq_nil_iff, List.filter_eq_nil_iff]
    intro a ha
    have hcond : a.cond (db2 user) = a.cond (db user) := by
      simp only [ACHIEVEMENTS, List.mem_cons, List.not_mem_nil, or_false] at ha
      rcases ha with rfl | rfl | rfl
      · simp [hwin]
      · simp [hwin]
      · simp [hguess]
    by_cases hq : (a.cond (db user) && !((db user).achievements.contains a.achId)) = true
    · have hid : ((ACHIEVEMENTS.filter
          (fun b => b.cond (db user) && !((db user).achievements.contains b.achId))).map
          (fun b => b.achId)).contains a.achId = true := by
        have hmem : a.achId ∈ (ACHIEVEMENTS.filter
            (fun b => b.cond (db user) && !((db user).achievements.contains b.achId))).map
            (fun b => b.achId) :=
          List.mem_map_of_mem _ (List.mem_filter.2 ⟨ha, hq⟩)
        simpa using hmem
      have hmem2 : a.achId ∈ (db2 user).achievements := by
        have h3 := hcont a.achId
        rw [hid] at h3
        simp only [Bool.or_true] at h3
        simpa using h3
      simp [hcond, hmem2]
    · cases hc : a.cond (db user) with
      | false => simp [hcond, hc]
      | true =>
        cases hm : (db user).achievements.contains a.achId with
        | false => exact absurd (by simp [hc]; simpa using hm) hq
        | true =>
          have h2 : a.achId ∈ (db2 user).achievements := by
            have h3 := hcont a.achId
            rw [hm] at h3
            simp only [Bool.true_or] at h3
            simpa using h3
          simp [h2]

/-- Claim C9: `hint("sassy", "sissy")` yields Correct, Absent, Correct,
Correct, Correct — the duplicate letters s are all credited and the a
at position 1 finds no unconsumed match. -/
theorem hint_sassy_sissy :
    get_hint
      ['s', 'a', 's', 's', 'y']
      ['s', 'i', 's', 's', 'y']
      = [HintMark.correct, HintMark.absent, HintMark.correct, HintMark.correct,
         HintMark.correct] := by
  decide

/-! Helper lemmas about the session model -/

theorem addTeam_guesses (g : GameB) (user : Int) (t : Option String) :
    (addTeam g user t).guesses = g.guesses := by
  cases t with
  | none => rfl
  | some s =>
    simp only [addTeam]
    split <;> rfl

theorem addTeam_settings (g : GameB) (user : Int) (t : Option String) :
    (addTeam g user t).settings = g.settings := by
  cases t with
  | none => rfl
  | some s =>
    simp only [addTeam]
    split <;> rfl

theorem appendGuess_guesses (g : GameB) (team : Option String) (user : Int)
    (guess : List Char) :
    (appendGuess g team user guess).guesses = g.guesses ++ [(user, guess)] := by
  unfold appendGuess
  simp [addTeam_guesses]

theorem appendGuess_settings (g : GameB) (team : Option String) (user : Int)
    (guess : List Char) :
    (appendGuess g team user guess).settings = g.settings := by
  unfold appendGuess
  simp [addTeam_settings]

theorem update_score_snd_games_played (nowD c0 c1 c2 c3 c4 c5 : DT) (u c : Int)
    (m : String) (t : Option String) (scores : Int → ScoreDoc)
    (stats : Int → PlayerStats) (p : Int) :
    ((update_score nowD c0 c1 c2 c3 c4 c5 u c m t scores stats).2 p).games_played
      = (stats p).games_played := by
  simp only [update_score, updFn]
  by_cases hp : p = u <;> simp [hp]

theorem update_score_snd_total_guesses (nowD c0 c1 c2 c3 c4 c5 : DT) (u c : Int)
    (m : String) (t : Option String) (scores : Int → ScoreDoc)
    (stats : Int → PlayerStats) (p : Int) :
    ((update_score nowD c0 c1 c2 c3 c4 c5 u c m t scores stats).2 p).total_guesses
      = (stats p).total_guesses := by
  simp only [update_score, updFn]
  by_cases hp : p = u <;> simp [hp]

theorem update_stats_fst_games_played (u : Int) (n : Nat) (tnow : Rat)
    (stats : Int → PlayerStats) (bot : BotStats) (p : Int) :
    ((update_stats u n tnow stats bot).1 p).games_played
      = (stats p).games_played + (if u = p then 1 else 0) := by
  simp only [update_stats, updFn]
  by_cases hp : p = u
  · subst hp; simp
  · have : ¬ u = p := fun h => hp h.symm
    simp [hp, this]

theorem update_stats_fst_total_guesses (u : Int) (n : Nat) (tnow : Rat)
    (stats : Int → PlayerStats) (bot : BotStats) (p : Int) :
    ((update_stats u n tnow stats bot).1 p).total_guesses
      = (stats p).total_guesses + (if u = p then n else 0) := by
  simp only [update_stats, updFn]
  by_cases hp : p = u
  · subst hp; simp
  · have : ¬ u = p := fun h => hp h.symm
    simp [hp, this]

theorem check_achievements_snd_games_played (u : Int) (db : Int → PlayerStats) (p : Int) :
    ((check_achievements u db).2 p).games_played = (db p).games_played :=
  checkAchGo_games_played u (db u) ACHIEVEMENTS db p

theorem check_achievements_snd_total_guesses (u : Int) (db : Int → PlayerStats) (p : Int) :
    ((check_achievements u db).2 p).total_guesses = (db p).total_guesses :=
  checkAchGo_total_guesses u (db u) ACHIEVEMENTS db p

theorem handle_guess_eq_acceptGuess (words : List (List Char)) (dnow : DT) (st : StateB)
    (chat user : Int) (text : List Char) (now : Rat) (g : GameB)
    (hrl : rateLimitedB st user now = false)
    (hgame : st.games chat = some (GameDoc.game g))
    (hban : g.banned.contains user = false)
    (hok : guessShapeOk (stripLower text) g.settings.word_length = true)
    (hdict : words.contains (stripLower text) = true) :
    handle_guess words dnow st chat user text now
      = acceptGuess dnow (withLastGuess st user now) chat user (stripLower text) g now := by
  have hbanm : user ∉ g.banned := by simpa using hban
  have hdictm : stripLower text ∈ words := by simpa using hdict
  have hgame1 : (withLastGuess st user now).games chat = some (GameDoc.game g) := hgame
  simp [handle_guess, hrl, hgame1, processGameGuess, hbanm, hok, hdictm]

/-- Claim C2: for an accepted guess on a live session, the outcome is a
win exactly when the case-normalized, stripped guess text equals the
target word, and a winning guess deletes the session (resolved-win). -/
theorem submit_guess_win_iff_exact (words : List (List Char)) (dnow : DT) (st : StateB)
    (chat user : Int) (text : List Char) (now : Rat) (g : GameB)
    (hrl : rateLimitedB st user now = false)
    (hgame : st.games chat = some (GameDoc.game g))
    (hban : g.banned.contains user = false)
    (hok : guessShapeOk (stripLower text) g.settings.word_length = true)
    (hdict : words.contains (stripLower text) = true) :
    (isWin (handle_guess words dnow st chat user text now).1 = true
      ↔ stripLower text = g.word) ∧
    (stripLower text = g.word →
      (handle_guess words dnow st chat user text now).2.games chat = none) ∧
    (stripLower text ≠ g.word →
      isWin (handle_guess words dnow st chat user text now).1 = false) := by
  rw [handle_guess_eq_acceptGuess words dnow st chat user text now g hrl hgame hban hok hdict]
  by_cases hw : stripLower text = g.word
  · refine ⟨?_, ?_, ?_⟩
    · simp [acceptGuess, hw, isWin]
    · intro _
      simp [acceptGuess, hw, updFn]
    · intro hww
      exact absurd hw hww
  · have hout : isWin (acceptGuess dnow (withLastGuess st user now) chat user
        (stripLower text) g now).1 = false := by
      simp only [acceptGuess]
      rw [if_neg hw]
      split <;> rfl
    refine ⟨?_, ?_, ?_⟩
    · rw [hout]
      simp [hw]
    · intro hww
      exact absurd hww hw
    · intro _
      exact hout

theorem submit_guess_win_iff_exact_witness :
    (rateLimitedB gameStateW 9 100 = false) ∧
    (gameStateW.games 1 = some (GameDoc.game gameW)) ∧
    (gameW.banned.contains 9 = false) ∧
    (guessShapeOk (stripLower ['a', 'p', 'p', 'l', 'e']) gameW.settings.word_length
      = true) ∧
    ([['a', 'p', 'p', 'l', 'e']].contains (stripLower ['a', 'p', 'p', 'l', 'e'])
      = true) ∧
    (isWin (handle_guess [['a', 'p', 'p', 'l', 'e']] ⟨0, 0, 0⟩ gameStateW 1 9
        ['a', 'p', 'p', 'l', 'e'] 100).1 = true
      ↔ stripLower ['a', 'p', 'p', 'l', 'e'] = gameW.word) :=
  ⟨rfl, rfl, by decide, by decide, by decide,
   (submit_guess_win_iff_exact [['a', 'p', 'p', 'l', 'e']] ⟨0, 0, 0⟩ gameStateW 1 9
     ['a', 'p', 'p', 'l', 'e'] 100 gameW rfl rfl (by decide) (by decide) (by decide)).1⟩

/-- Claim C3: with a live session holding fewer guesses than
`max_guesses = n`, an accepted non-winning guess resolves the session
as exhausted (deleting it) exactly when it is the n-th guess; below the
boundary the session stays live with the guess count incremented and
the settings unchanged; a winning n-th guess resolves as a win. -/
theorem exhaustion_boundary (words : List (List Char)) (dnow : DT) (st : StateB)
    (chat user : Int) (text : List Char) (now : Rat) (g : GameB)
    (hrl : rateLimitedB st user now = false)
    (hgame : st.games chat = some (GameDoc.game g))
    (hban : g.banned.contains user = false)
    (hok : guessShapeOk (stripLower text) g.settings.word_length = true)
    (hdict : words.contains (stripLower text) = true)
    (hlt : g.guesses.length < g.settings.max_guesses) :
    (stripLower text ≠ g.word →
      (((handle_guess words dnow st chat user text now).1
          = Outcome.gameOver (get_hint (stripLower text) g.word) ∧
        (handle_guess words dnow st chat user text now).2.games chat = none)
       ↔ g.guesses.length + 1 = g.settings.max_guesses)) ∧
    (stripLower text ≠ g.word → g.guesses.length + 1 < g.settings.max_guesses →
      ∃ g2 : GameB,
        (handle_guess words dnow st chat user text now).2.games chat
          = some (GameDoc.game g2) ∧
        g2.guesses.length = g.guesses.length + 1 ∧ g2.settings = g.settings) ∧
    (stripLower text = g.word →
      isWin (handle_guess words dnow st chat user text now).1 = true) := by
  rw [handle_guess_eq_acceptGuess words dnow st chat user text now g hrl hgame hban hok hdict]
  have hlen : (appendGuess g (teamOf g) user (stripLower text)).guesses.length
      = g.guesses.length + 1 := by
    rw [appendGuess_guesses]
    simp
  refine ⟨?_, ?_, ?_⟩
  · intro hw
    by_cases hex : g.settings.max_guesses
        ≤ (appendGuess g (teamOf g) user (stripLower text)).guesses.length
    · have hb : g.guesses.length + 1 = g.settings.max_guesses := by
        rw [hlen] at hex
        omega
      simp only [acceptGuess]
      rw [if_neg hw, if_pos hex]
      simp [updFn, hb]
    · have hb : ¬ (g.guesses.length + 1 = g.settings.max_guesses) := by
        rw [hlen] at hex
        omega
      simp only [acceptGuess]
      rw [if_neg hw, if_neg hex]
      simp [hb]
  · intro hw hlt2
    have hex : ¬ (g.settings.max_guesses
        ≤ (appendGuess g (teamOf g) user (stripLower text)).guesses.length) := by
      rw [hlen]
      omega
    refine ⟨appendGuess g (teamOf g) user (stripLower text), ?_, hlen,
      appendGuess_settings g (teamOf g) user (stripLower text)⟩
    simp only [acceptGuess]
    rw [if_neg hw, if_neg hex]
    simp [update_stats, updFn]
  · intro hw
    simp [acceptGuess, hw, isWin]

theorem exhaustion_boundary_witness :
    (rateLimitedB gameStateW 9 100 = false) ∧
    (gameStateW.games 1 = some (GameDoc.game gameW)) ∧
    (gameW.guesses.length < gameW.settings.max_guesses) ∧
    (stripLower ['g', 'r', 'a', 'p', 'e'] = gameW.word →
      isWin (handle_guess [['g', 'r', 'a', 'p', 'e']] ⟨0, 0, 0⟩ gameStateW 1 9
        ['g', 'r', 'a', 'p', 'e'] 100).1 = true) :=
  ⟨rfl, rfl, by decide,
   (exhaustion_boundary [['g', 'r', 'a', 'p', 'e']] ⟨0, 0, 0⟩ gameStateW 1 9
     ['g', 'r', 'a', 'p', 'e'] 100 gameW rfl rfl (by decide) (by decide) (by decide)
     (by decide)).2.2⟩

/-- Claim C4: a settings update on a chat with no game upserts a
word-less stub document into `games_coll`, after which `/new` fails
with AlreadyInProgress even though no live session exists — refuting
the only-if direction of the claim and matching the spec's intent that
create must succeed when no live session exists. -/
theorem settings_upsert_blocks_create :
    ¬ liveSession (update_settings emptyStateB 1 SettingKey.maxGuesses
        (SettingVal.num 5)).2 1 ∧
    (new_game (update_settings emptyStateB 1 SettingKey.maxGuesses
        (SettingVal.num 5)).2 1 "standard" [['a', 'p', 'p', 'l', 'e']] 0).1
      = NewGameResult.alreadyInProgress ∧
    (new_game emptyStateB 1 "standard" [['a', 'p', 'p', 'l', 'e']] 0).1
      = NewGameResult.started ['a', 'p', 'p', 'l', 'e'] := by
  refine ⟨?_, by decide, by decide⟩
  rintro ⟨g, hg⟩
  simp [update_settings, applySetting, DEFAULT_SETTINGS, emptyStateB, updFn] at hg

/-- Claim C5 (counterexample): with an empty fetched word list, `/new`
does not signal a recoverable NoWordsAvailable error — it crashes with
the uncaught IndexError of `random.choice([])` (there is no
NoWordsAvailable outcome anywhere in the code); no session is
created. -/
theorem new_game_empty_words_crash :
    (new_game emptyStateB 1 "standard" [] 0).1 = NewGameResult.crashIndexError ∧
    (new_game emptyStateB 1 "standard" [] 0).2.games 1 = none := by
  exact ⟨by decide, rfl⟩

/-- Claim C5 (amended): whenever the word source yields an empty list
for the requested length and no game exists for the chat, `/new`
crashes with `IndexError` instead of failing with a recoverable
NoWordsAvailable error, and the store is left unchanged (in particular
no session is created for the chat). -/
theorem new_game_empty_words_amended (st : StateB) (chat : Int) (mode : String)
    (pick : Nat)
    (hmode : (["standard", "team", "competitive"].contains mode) = true)
    (hno : st.games chat = none) :
    (new_game st chat mode [] pick).1 = NewGameResult.crashIndexError ∧
    (new_game st chat mode [] pick).2 = st := by
  have hmode2 : mode = "standard" ∨ mode = "team" ∨ mode = "competitive" := by
    simpa using hmode
  have hcond : ¬ (¬ mode = "standard" ∧ ¬ mode = "team" ∧ ¬ mode = "competitive") := by
    rcases hmode2 with h | h | h <;> simp [h]
  simp [new_game, hno, hcond]

theorem new_game_empty_words_amended_witness :
    ((["standard", "team", "competitive"].contains "standard") = true) ∧
    (emptyStateB.games 5 = none) ∧
    ((new_game emptyStateB 5 "standard" [] 3).1 = NewGameResult.crashIndexError ∧
     (new_game emptyStateB 5 "standard" [] 3).2 = emptyStateB) :=
  ⟨by decide, rfl, new_game_empty_words_amended emptyStateB 5 "standard" 3 (by decide) rfl⟩

/-! Stats bookkeeping per guess (claim C10) -/

theorem handle_guess_stats_step (words : List (List Char)) (dnow : DT) (st : StateB)
    (chat user : Int) (text : List Char) (now : Rat) (p : Int) :
    ((handle_guess words dnow st chat user text now).2.stats p).games_played
      = (st.stats p).games_played
        + (if user = p ∧
             acceptedB (handle_guess words dnow st chat user text now).1 = true
           then 1 else 0) ∧
    ((handle_guess words dnow st chat user text now).2.stats p).total_guesses
      = (st.stats p).total_guesses
        + (if user = p ∧
             acceptedB (handle_guess words dnow st chat user text now).1 = true
           then 1 else 0) := by
  cases hrl : rateLimitedB st user now with
  | true => simp [handle_guess, hrl, acceptedB]
  | false =>
    cases hg : st.games chat with
    | none =>
      simp [handle_guess, hrl, hg, acceptedB, withLastGuess]
    | some doc =>
      cases doc with
      | stub s =>
        cases h1 : guessShapeOk (stripLower text) s.word_length with
        | false => simp [handle_guess, hrl, hg, h1, acceptedB, withLastGuess]
        | true =>
          cases h2 : words.contains (stripLower text) with
          | false =>
            have h2m : stripLower text ∉ words := by simpa using h2
            simp [handle_guess, hrl, hg, h1, h2m, acceptedB, withLastGuess]
          | true =>
            have h2m : stripLower text ∈ words := by simpa using h2
            simp [handle_guess, hrl, hg, h1, h2m, acceptedB, withLastGuess]
      | game g =>
        cases hb : g.banned.contains user with
        | true =>
          have hbm : user ∈ g.banned := by simpa using hb
          simp [handle_guess, processGameGuess, hrl, hg, hbm, acceptedB, withLastGuess]
        | false =>
          have hbm : user ∉ g.banned := by simpa using hb
          cases h1 : guessShapeOk (stripLower text) g.settings.word_length with
          | false =>
            simp [handle_guess, processGameGuess, hrl, hg, hbm, h1, acceptedB,
              withLastGuess]
          | true =>
            cases h2 : words.contains (stripLower text) with
            | false =>
              have h2m : stripLower text ∉ words := by simpa using h2
              simp [handle_guess, processGameGuess, hrl, hg, hbm, h1, h2m, acceptedB,
                withLastGuess]
            | true =>
              have he : handle_guess words dnow st chat user text now
                  = acceptGuess dnow (withLastGuess st user now) chat user
                      (stripLower text) g now :=
                handle_guess_eq_acceptGuess words dnow st chat user text now g hrl hg
                  hb h1 h2
              rw [he]
              by_cases hw : stripLower text = g.word
              · simp [acceptGuess, hw, acceptedB, withLastGuess,
                  check_achievements_snd_games_played, check_achievements_snd_total_guesses,
                  update_score_snd_games_played, update_score_snd_total_guesses,
                  update_stats_fst_games_played, update_stats_fst_total_guesses]
              · constructor
                · simp only [acceptGuess]
                  rw [if_neg hw]
                  by_cases hex : g.settings.max_guesses
                      ≤ (appendGuess g (teamOf g) user (stripLower text)).guesses.length
                  · rw [if_pos hex]
                    simp [acceptedB, withLastGuess, update_stats_fst_games_played]
                  · rw [if_neg hex]
                    simp [acceptedB, withLastGuess, update_stats_fst_games_played]
                · simp only [acceptGuess]
                  rw [if_neg hw]
                  by_cases hex : g.settings.max_guesses
                      ≤ (appendGuess g (teamOf g) user (stripLower text)).guesses.length
                  · rw [if_pos hex]
                    simp [acceptedB, withLastGuess, update_stats_fst_total_guesses]
                  · rw [if_neg hex]
                    simp [acceptedB, withLastGuess, update_stats_fst_total_guesses]

theorem rankify_map_snd (start : Nat) (l : List (Int × Int)) :
    (rankify start l).map (fun e => e.2) = l := by
  induction l generalizing start with
  | nil => rfl
  | cons x xs ih => simp [rankify, ih]

theorem rankify_length (start : Nat) (l : List (Int × Int)) :
    (rankify start l).length = l.length := by
  induction l generalizing start with
  | nil => rfl
  | cons x xs ih => simp [rankify, ih]

theorem rankify_map_fst (start : Nat) (l : List (Int × Int)) :
    (rankify start l).map (fun e => e.1) = List.range' start l.length := by
  induction l generalizing start with
  | nil => rfl
  | cons x xs ih => simp [rankify, ih, List.range']

theorem joinTakeChunks {α : Type} (l : List α) (c : Nat) :
    ∀ n : Nat, ((List.range n).map (fun k => (l.drop (k * c)).take c)).flatten
      = l.take (n * c) := by
  intro n
  induction n with
  | zero => simp
  | succ n ih =>
    rw [List.range_succ, List.map_append, List.flatten_append, ih]
    simp only [List.map_cons, List.map_nil, List.flatten_cons, List.flatten_nil,
      List.append_nil]
    rw [Nat.succ_mul, List.take_add]

/-- Claim C7 (counterexample): with exactly five matching entries, page
1 shows a Next button (`hasNext = true`) even though the total number
of matching entries (five) does not exceed `page * pageSize = 5` — the
code derives hasNext from the current page being full, not from the
total matching count the claim states. -/
theorem leaderboard_hasNext_counterexample :
    (ws_get_leaderboard rows5 "global" 1 Period.all_time 1).hasNext = true ∧
    ¬ (5 * 1 < (rows5.filter (matchRow "global" 1 Period.all_time)).length) := by
  exact ⟨by decide, by decide⟩

/-- Claim C7 (amended): the result of `query(scope, chatId, period,
page)` with pageSize 5 lists the entries with a positive count in the
requested bucket, sorted descending by that count, sliced to
`[(page-1)*5, page*5)`, with displayed ranks `1 + (page-1)*5 + offset`;
`hasPrev` iff `page > 1`; but `hasNext` iff the RETURNED page is full
(5 entries) — true also when no further entries exist; consecutive
pages still partition the sorted matching entries with no duplicates
and no omissions (for 12 entries, pages 1, 2, 3 yield 5, 5, 2). -/
theorem leaderboard_pagination_amended (rows : List ScoreRow) (scope : String)
    (chat : Int) (p : Period) (page : Nat) :
    ((ws_get_leaderboard rows scope chat p page).entries.map (fun e => e.2)
      = (((orderRows p (rows.filter (matchRow scope chat p))).drop
          ((page - 1) * 5)).take 5).map (fun r => (r.user_id, bucket r p))) ∧
    ((ws_get_leaderboard rows scope chat p page).entries.map (fun e => e.1)
      = List.range' (1 + (page - 1) * 5)
          (ws_get_leaderboard rows scope chat p page).entries.length) ∧
    ((orderRows p (rows.filter (matchRow scope chat p))).Perm
      (rows.filter (matchRow scope chat p))) ∧
    ((orderRows p (rows.filter (matchRow scope chat p))).Pairwise
      (fun a b => bucket b p ≤ bucket a p)) ∧
    ((ws_get_leaderboard rows scope chat p page).hasPrev = decide (1 < page)) ∧
    ((ws_get_leaderboard rows scope chat p page).hasNext
      = decide ((ws_get_leaderboard rows scope chat p page).entries.length = 5)) ∧
    (∀ n : Nat,
      ((List.range n).map (fun k =>
        (ws_get_leaderboard rows scope chat p (k + 1)).entries.map (fun e => e.2))).flatten
      = ((orderRows p (rows.filter (matchRow scope chat p))).map
          (fun r => (r.user_id, bucket r p))).take (n * 5)) := by
  refine ⟨?_, ?_, ?_, ?_, ?_, ?_, ?_⟩
  · simp [ws_get_leaderboard, sqlRows, rankify_map_snd]
  · simp [ws_get_leaderboard, rankify_map_fst, rankify_length]
  · simpa [orderRows] using
      List.perm_insertionSort (lbOrd p) (rows.filter (matchRow scope chat p))
  · simpa [orderRows, lbOrd, List.Sorted] using
      List.sorted_insertionSort (lbOrd p) (rows.filter (matchRow scope chat p))
  · rfl
  · simp [ws_get_leaderboard, rankify_length]
  · intro n
    have hk : ∀ k : Nat,
        (ws_get_leaderboard rows scope chat p (k + 1)).entries.map (fun e => e.2)
          = (((orderRows p (rows.filter (matchRow scope chat p))).map
              (fun r => (r.user_id, bucket r p))).drop (k * 5)).take 5 := by
      intro k
      simp [ws_get_leaderboard, sqlRows, rankify_map_snd, List.map_take, List.map_drop]
    simp only [hk]
    exact joinTakeChunks _ 5 n

/-- Claim C10: over any sequence of inbound guess messages, a player's
`games_played` and `total_guesses` counters each grow by exactly the
number of that player's accepted guesses — `games_played` counts
accepted guesses, not distinct games — so the profile figure
`total_guesses / games_played` averages over that guess count. -/
theorem games_played_counts_accepted_guesses (words : List (List Char)) (dnow : DT) :
    ∀ (trace : List EventG) (st0 : StateB) (p : Int),
      ((runTrace words dnow st0 trace).stats p).games_played
        = (st0.stats p).games_played + acceptedCount words dnow p st0 trace ∧
      ((runTrace words dnow st0 trace).stats p).total_guesses
        = (st0.stats p).total_guesses + acceptedCount words dnow p st0 trace := by
  intro trace
  induction trace with
  | nil =>
    intro st0 p
    simp [runTrace, acceptedCount]
  | cons e es ih =>
    intro st0 p
    have hstep := handle_guess_stats_step words dnow st0 e.chat e.user e.text e.now p
    have hrec := ih (handle_guess words dnow st0 e.chat e.user e.text e.now).2 p
    simp only [runTrace, acceptedCount]
    constructor
    · rw [hrec.1, hstep.1, Nat.add_assoc]
    · rw [hrec.2, hstep.2, Nat.add_assoc]

end WordSeek

